import Mathlib

/-
Verification of the rule-resolution engine of the dnd-mcp repository.

The Python sources (src/agents/rules_arbiter.py, src/campaign_loader.py,
src/dnd_campaign_mcp.py) are shallowly embedded below.  Python strings are
modelled as `List Char`; Python's `Optional[str]` as `Option (List Char)`;
Python truthiness of a string value (`if s:`) as "is a non-empty list".
Python's `str.find`/`str.rfind` return -1 on failure, so their embeddings
return `Int` and callers compare against the same sentinels the source does.
Case-insensitive regex matching of an escaped (literal) pattern is modelled
by lower-casing both sides (the corpora are ASCII).
-/

namespace DndMcp

abbrev LC := List Char

def strL (s : String) : LC := s.data

/-- Python `str` whitespace for `strip()` (ASCII part): space, tab, newline,
carriage return, vertical tab, form feed. -/
def pyIsSpace (c : Char) : Bool :=
  c = ' ' || c = '\t' || c = '\n' || c = '\r' || c = Char.ofNat 11 || c = Char.ofNat 12

/-- Python `str.strip()`: remove leading and trailing whitespace. -/
def pyStrip (l : LC) : LC :=
  ((l.dropWhile pyIsSpace).reverse.dropWhile pyIsSpace).reverse

/-- Python `str.lower()` (ASCII case folding, matching the repository's corpora). -/
def lowerL (l : LC) : LC := l.map Char.toLower

/-- Decidable prefix test on character lists (needle, haystack). -/
def leadsL : LC → LC → Bool
  | [], _ => true
  | _ :: _, [] => false
  | a :: as, b :: bs => a = b && leadsL as bs

/-- First index at which `needle` occurs in `hay`, as Python `str.find`
computes it (`none` for Python's -1). -/
def pyFindNat (needle hay : LC) : Option Nat :=
  if leadsL needle hay then some 0
  else
    match hay with
    | [] => none
    | _ :: t => (pyFindNat needle t).map (· + 1)

/-- Python `str.find`: first occurrence index, -1 when absent. -/
def pyFind (needle hay : LC) : Int :=
  match pyFindNat needle hay with
  | none => -1
  | some n => (n : Int)

/-- Last index at which `needle` occurs in `hay` (Python `str.rfind`, `none`
for -1). -/
def pyRFindNat (needle hay : LC) : Option Nat :=
  ((List.range (hay.length + 1)).filter (fun i => leadsL needle (hay.drop i))).getLast?

/-- Python `str.rfind`: last occurrence index, -1 when absent. -/
def pyRFind (needle hay : LC) : Int :=
  match pyRFindNat needle hay with
  | none => -1
  | some n => (n : Int)

/-- First index of a case-insensitive literal occurrence of `term` in `text`:
the embedding of `re.compile(re.escape(term), re.IGNORECASE).search(text)`
(`none` when the search fails).  The match has the length of `term`. -/
def ciFindNat (term text : LC) : Option Nat :=
  pyFindNat (lowerL term) (lowerL text)

/-- A case-insensitive literal occurrence of `term` exists in `text`. -/
def ciOccurs (term text : LC) : Prop :=
  ∃ i, leadsL (lowerL term) ((lowerL text).drop i) = true

/-- Embedding of `RulesArbiter._search_in_text` (rules_arbiter.py lines
153-182): guard on empty inputs, first case-insensitive match, a window of
300 characters on each side clamped to the text, the two sentence-boundary
trims written exactly as the source writes them (`first_period > 0 and
first_period < 100`; `last_period > len(context) - 100`, where a failed
`rfind` yields -1), and a final `strip()`. -/
def searchInText (term text : LC) : Option LC :=
  if text.isEmpty || term.isEmpty then none
  else
    match ciFindNat term text with
    | none => none
    | some m =>
      let start := m - 300
      let stop := min text.length (m + term.length + 300)
      let context := (text.drop start).take (stop - start)
      let fp : Int := pyFind (strL ". ") context
      let context := if fp > 0 && fp < 100 then context.drop (fp + 2).toNat else context
      let lp : Int := pyRFind (strL ". ") context
      let context := if lp > (context.length : Int) - 100 then context.take (lp + 1).toNat else context
      some (pyStrip context)

/-- Length of the run of '#' characters at the head of the list
(`re.match(r'#+', s)`). -/
def hashRun : LC → Nat
  | [] => 0
  | c :: t => if c = '#' then hashRun t + 1 else 0

/-- Length of the run of whitespace characters at the head of the list. -/
def wsRun : LC → Nat
  | [] => 0
  | c :: t => if pyIsSpace c then wsRun t + 1 else 0

/-- Backtracking over the greedy star in the heading pattern: having consumed
the heading markers, the regex engine tries the longest whitespace run first
and shrinks it until the (case-insensitive, literal) section name matches.
`u` is the text after the markers, `w` the whitespace-run length currently
tried.  Returns the match end relative to `u`. -/
def headTryW (name u : LC) : Nat → Option Nat
  | 0 => if leadsL (lowerL name) (lowerL u) then some name.length else none
  | w + 1 =>
    if leadsL (lowerL name) (lowerL (u.drop (w + 1))) then some (w + 1 + name.length)
    else headTryW name u w

/-- Backtracking over the greedy plus in the heading pattern `#+\s*name`:
`k` heading markers are consumed (longest first), then the whitespace star
is tried.  `s` is the text at the candidate match position.  Returns the
match end relative to `s`. -/
def headTryK (name s : LC) : Nat → Option Nat
  | 0 => none
  | k + 1 =>
    match headTryW name (s.drop (k + 1)) (wsRun (s.drop (k + 1))) with
    | some relEnd => some (k + 1 + relEnd)
    | none => headTryK name s k

/-- Scan for the leftmost match of `#+\s*name` (case-insensitive), as
`re.search` does: candidate start positions are tried left to right. -/
def matchHeadingAux (name : LC) : LC → Nat → Option (Nat × Nat)
  | [], _ => none
  | c :: t, idx =>
    match headTryK name (c :: t) (hashRun (c :: t)) with
    | some relEnd => some (idx, idx + relEnd)
    | none => matchHeadingAux name t (idx + 1)

/-- Embedding of `re.compile(f"#+\s*{re.escape(section_name)}",
re.IGNORECASE).search(text)`: `(match.start(), match.end())` of the first
match, or `none`. -/
def matchHeading (name text : LC) : Option (Nat × Nat) :=
  matchHeadingAux name text 0

/-- The list starts with a whitespace character (`\s` at a position). -/
def wsAt : LC → Bool
  | c :: _ => pyIsSpace c
  | [] => false

/-- The regex `#{1,d}\s` at a fixed position: the greedy counted repetition
tries `k` markers from `min d (hash run)` down to 1, then requires one
whitespace character.  Succeeds iff some `k` works. -/
def nhTryK (s : LC) : Nat → Bool
  | 0 => false
  | k + 1 => wsAt (s.drop (k + 1)) || nhTryK s k

/-- The regex `#{1,d}\s` matches at the head of `s`. -/
def nhMatches (d : Nat) (s : LC) : Bool :=
  nhTryK s (min d (hashRun s))

/-- Scan of `re.compile(f"^#{'{1,' + str(level) + '}'}\s", re.MULTILINE)
.search(rest)`: `^` matches at the start of the scanned string and right
after every newline; candidate positions are tried left to right.  `ls`
records whether the current position is such a line start. -/
def nextHeadingAux (d : Nat) : LC → Nat → Bool → Option Nat
  | [], _, _ => none
  | c :: t, idx, ls =>
    if ls && nhMatches d (c :: t) then some idx
    else nextHeadingAux d t (idx + 1) (c = '\n')

/-- Start index of the first match of `^#{1,d}\s` (MULTILINE) in `rest`. -/
def nextHeadingIdx (d : Nat) (rest : LC) : Option Nat :=
  nextHeadingAux d rest 0 true

/-- Embedding of `RulesArbiter._extract_section` (rules_arbiter.py lines
184-207): find the heading pattern, read the heading depth as the '#' run at
the match start, locate the next heading of depth at most that level in the
text after the match, slice, and strip. -/
def extractSection (text name : LC) : Option LC :=
  match matchHeading name text with
  | none => none
  | some (p, e) =>
    let d := hashRun (text.drop p)
    let rest := text.drop e
    let stop :=
      match nextHeadingIdx d rest with
      | some q => e + q
      | none => text.length
    some (pyStrip ((text.drop p).take (stop - p)))

/-- Spec-side description of a terminating heading line (from spec section
4.3: "the next heading line whose depth is ≤ the matched depth", a heading
line being a marker run followed by whitespace): the depth — the full '#'
run — is between 1 and `d` and is followed by a whitespace character. -/
def specHeadingLE (d : Nat) (s : LC) : Bool :=
  decide (1 ≤ hashRun s) && decide (hashRun s ≤ d) && wsAt (s.drop (hashRun s))

/-- Spec-side scan for the next terminating heading line (spec section 4.3
step 3), amended with the code's actual notion of line start: position 0 of
the scanned remainder also counts as a line start, even when the remainder
begins mid-line of the original document. -/
def specNextHeadingAux (d : Nat) : LC → Nat → Bool → Option Nat
  | [], _, _ => none
  | c :: t, idx, ls =>
    if ls && specHeadingLE d (c :: t) then some idx
    else specNextHeadingAux d t (idx + 1) (c = '\n')

/-- Spec-side: start index of the next heading line of depth ≤ `d`. -/
def specNextHeadingIdx (d : Nat) (rest : LC) : Option Nat :=
  specNextHeadingAux d rest 0 true

/-- Backtracking over the greedy `\s+` of `^#+\s+(.+)$`: `u` is the text
after the marker run; whitespace-run lengths are tried longest first, and
the capture `(.+)$` needs at least one non-newline character at the
position after the consumed whitespace. -/
def catTryW (u : LC) : Nat → Option Nat
  | 0 => none
  | w + 1 =>
    match u.drop (w + 1) with
    | c :: _ => if c ≠ '\n' then some (w + 1) else catTryW u w
    | [] => catTryW u w

/-- Scan of `re.findall(r'^#+\s+(.+)$', text, re.MULTILINE)` (rules_arbiter
lines 209-212): at each line start with a marker run, the greedy whitespace
and the line capture are tried; on success the capture (all characters up to
the line end) is collected and the scan resumes at the line end; otherwise
the scan advances one character. -/
def catAux : LC → Bool → List LC
  | [], _ => []
  | c :: t, ls =>
    if h : ls = true ∧ 1 ≤ hashRun (c :: t) then
      match catTryW ((c :: t).drop (hashRun (c :: t))) (wsRun ((c :: t).drop (hashRun (c :: t)))) with
      | some w =>
        (((c :: t).drop (hashRun (c :: t))).drop w).takeWhile (fun x => x ≠ '\n')
          :: catAux ((((c :: t).drop (hashRun (c :: t))).drop w).dropWhile (fun x => x ≠ '\n')) false
      | none => catAux t (c = '\n')
    else catAux t (c = '\n')
termination_by l _ => l.length
decreasing_by
  · obtain ⟨-, hr⟩ := h
    have hs := congrArg List.length
      (List.takeWhile_append_dropWhile (p := fun x => x ≠ '\n')
        (l := (((c :: t).drop (hashRun (c :: t))).drop w)))
    simp only [List.length_append, List.length_drop, List.length_cons] at hs ⊢
    omega
  · simp
  · simp

/-- Embedding of `RulesArbiter._extract_categories`. -/
def extractCategories (text : LC) : List LC :=
  catAux text true

/-- Python `sub in s` substring containment. -/
def isSubstrL (needle hay : LC) : Bool :=
  (pyFindNat needle hay).isSome

/-- The fixed vocabulary of domain terms scanned by
`RulesArbiter._extract_keywords`, in the source's order. -/
def dndTerms : List LC :=
  [strL "advantage", strL "disadvantage", strL "attack", strL "damage",
   strL "spell", strL "casting", strL "initiative", strL "combat",
   strL "action", strL "bonus action", strL "reaction", strL "saving throw",
   strL "ability check", strL "skill check", strL "critical", strL "rest",
   strL "concentration", strL "death save", strL "hit points", strL "armor class"]

/-- The vocabulary pass of `_extract_keywords`: every term contained in the
lower-cased input, in vocabulary order. -/
def vocabHits (text : LC) : List LC :=
  dndTerms.filter (fun t => isSubstrL t (lowerL text))

/-- Scan of `re.findall(r'"([^"]+)"', text)` as a left-to-right state
machine (structural recursion, equivalent to the regex's non-overlapping
scan): outside quotes, a double quote opens a candidate; inside, non-quote
characters accumulate (in reverse); a closing quote emits the accumulated
content when non-empty, and otherwise (the `""` case, where `[^"]+` fails)
the closing quote is retried as a new opener, exactly as the regex engine
advances past a failed opening position.  An unclosed candidate at the end
of input emits nothing. -/
def findQuotedAux : LC → Option LC → List LC
  | [], _ => []
  | c :: t, none => if c = '"' then findQuotedAux t (some []) else findQuotedAux t none
  | c :: t, some acc =>
    if c = '"' then
      if acc.isEmpty then findQuotedAux t (some [])
      else acc.reverse :: findQuotedAux t none
    else findQuotedAux t (some (c :: acc))

/-- All captures of `re.findall(r'"([^"]+)"', text)`, in order. -/
def findQuoted (l : LC) : List LC :=
  findQuotedAux l none

/-- Embedding of `RulesArbiter._extract_keywords` (rules_arbiter.py lines
214-235): vocabulary hits, then up to three quoted phrases, truncated to
five entries. -/
def extractKeywords (text : LC) : List LC :=
  (vocabHits text ++ (findQuoted text).take 3).take 5

/-- Assoc-list lookup (first match), modelling Python dict access on the
string-keyed mappings the engine consumes. -/
def alookup {α : Type} (k : LC) : List (LC × α) → Option α
  | [] => none
  | (k2, v) :: t => if k = k2 then some v else alookup k t

/-- Python truthiness of an `Optional[str]` value: present and non-empty. -/
def truthy : Option LC → Bool
  | none => false
  | some s => !s.isEmpty

/-- A campaign's aggregated data as handed to the engine: display name plus
the string-valued document store (semantic role ↦ text content), the shape
`campaign_data["files"][key]["content"]` takes for file entries. -/
structure CampaignData where
  name : LC
  files : List (LC × LC)
deriving DecidableEq

/-- Embedding of `RulesArbiter._extract_house_rules` (rules_arbiter.py lines
25-37): the "houseRules" entry's content, else the legacy "rules" entry's
content, else the empty text. -/
def extractHouseRules (files : List (LC × LC)) : LC :=
  match alookup (strL "houseRules") files with
  | some c => c
  | none =>
    match alookup (strL "rules") files with
    | some c => c
    | none => []

/-- The `RulesArbiter` agent state set up by `__init__`: campaign name, the
house-rules text extracted once at construction, and the core-rules
document set. -/
structure Arbiter where
  campaignName : LC
  houseRules : LC
  coreRules : List (LC × LC)
deriving DecidableEq

/-- Embedding of `RulesArbiter.__init__`. -/
def mkArbiter (data : CampaignData) (core : List (LC × LC)) : Arbiter :=
  { campaignName := data.name
    houseRules := extractHouseRules data.files
    coreRules := core }

/-- The core text every search consults:
`self.core_rules.get("house-rules", "")`. -/
def coreText (a : Arbiter) : LC :=
  (alookup (strL "house-rules") a.coreRules).getD []

/-- Result record of `query_rule`. -/
structure QueryResult where
  ruleName : LC
  context : LC
  coreRule : Option LC
  houseRule : Option LC
  recommendation : LC
  sources : List LC
deriving DecidableEq

/-- Embedding of `RulesArbiter.query_rule` (rules_arbiter.py lines 39-70):
both corpora are searched; a field is populated only when the search result
is truthy; the recommendation prefers the house rule, then the core rule,
then the fixed fallback message. -/
def queryRule (a : Arbiter) (ruleName context : LC) : QueryResult :=
  let coreResult := searchInText ruleName (coreText a)
  let houseResult := searchInText ruleName a.houseRules
  let coreField := if truthy coreResult then coreResult else none
  let houseField := if truthy houseResult then houseResult else none
  { ruleName := ruleName
    context := context
    coreRule := coreField
    houseRule := houseField
    recommendation :=
      match houseField with
      | some h => strL "Use campaign-specific rule: " ++ h.take 200 ++ strL "..."
      | none =>
        match coreField with
        | some c => strL "Use core rule: " ++ c.take 200 ++ strL "..."
        | none =>
          strL "No specific rule found for '" ++ ruleName
            ++ strL "'. Use standard 5e rules or make a ruling."
    sources :=
      (if truthy coreResult then [strL "Core Rules"] else [])
        ++ (if truthy houseResult then [a.campaignName ++ strL " House Rules"] else []) }

/-- One entry of the `differences` list of `compare_rules`. -/
structure DiffEntry where
  aspect : LC
  coreRule : LC
  campaignRule : LC
  useCampaignRule : Bool
deriving DecidableEq

/-- Result record of `compare_rules`. -/
structure CompareResult where
  ruleName : LC
  coreDefined : Bool
  campaignOverride : Bool
  differences : List DiffEntry
  recommendation : LC
deriving DecidableEq

/-- Embedding of `RulesArbiter.compare_rules` (rules_arbiter.py lines
99-119): a difference is recorded when both searches are truthy and their
excerpts differ (`core_search and house_search and core_search !=
house_search`). -/
def compareRules (a : Arbiter) (ruleName : LC) : CompareResult :=
  let coreSearch := searchInText ruleName (coreText a)
  let houseSearch := searchInText ruleName a.houseRules
  { ruleName := ruleName
    coreDefined := truthy coreSearch
    campaignOverride := truthy houseSearch
    differences :=
      match coreSearch, houseSearch with
      | some c, some h =>
        if c.isEmpty = false ∧ h.isEmpty = false ∧ c ≠ h then
          [{ aspect := ruleName, coreRule := c, campaignRule := h, useCampaignRule := true }]
        else []
      | _, _ => []
    recommendation :=
      if truthy houseSearch then strL "Use campaign rule"
      else if truthy coreSearch then strL "Use core rule"
      else strL "Use standard 5e" }

/-- Result record of `check_house_rules`; the three Python return shapes are
merged into one record with optional fields. -/
structure CheckResult where
  campaign : LC
  houseRules : Option LC
  category : Option LC
  rules : Option LC
  fullRules : Option LC
  categories : Option (List LC)
deriving DecidableEq

/-- Fixed message when the campaign has no house-rules text. -/
def noHouseMsg : LC :=
  strL "No campaign-specific house rules defined. Using core rules."

/-- The all-rules return shape of `check_house_rules` (its final branch). -/
def checkAllBranch (a : Arbiter) : CheckResult :=
  { campaign := a.campaignName
    houseRules := some a.houseRules
    category := none
    rules := none
    fullRules := none
    categories := some (extractCategories a.houseRules) }

/-- Embedding of `RulesArbiter.check_house_rules` (rules_arbiter.py lines
72-97); a falsy (absent or empty) category selects the all-rules branch,
mirroring `if rule_category:`. -/
def checkHouseRules (a : Arbiter) (cat : Option LC) : CheckResult :=
  if a.houseRules.isEmpty then
    { campaign := a.campaignName
      houseRules := some noHouseMsg
      category := none
      rules := none
      fullRules := none
      categories := some [] }
  else
    match cat with
    | some c =>
      if c.isEmpty then checkAllBranch a
      else
        { campaign := a.campaignName
          houseRules := none
          category := some c
          rules := some
            (match extractSection a.houseRules c with
             | some s =>
               if s.isEmpty then strL "No rules found for category: " ++ c else s
             | none => strL "No rules found for category: " ++ c)
          fullRules := some a.houseRules
          categories := none }
    | none => checkAllBranch a

/-- One labeled related-rule entry collected by `resolve_edge_case`. -/
structure RelatedRule where
  source : LC
  keyword : LC
  text : LC
deriving DecidableEq

/-- Result record of `resolve_edge_case`. -/
structure EdgeResult where
  situation : LC
  relatedRules : List RelatedRule
  suggestion : LC
  note : LC
deriving DecidableEq

/-- The per-keyword collection step of `resolve_edge_case`: a truthy core
hit is appended first, then a truthy house hit, each truncated to 150
characters. -/
def relatedForKeyword (a : Arbiter) (kw : LC) : List RelatedRule :=
  let core := searchInText kw (coreText a)
  let house := searchInText kw a.houseRules
  (if truthy core then
    [{ source := strL "Core Rules", keyword := kw, text := (core.getD []).take 150 }]
   else [])
    ++ (if truthy house then
      [{ source := strL "House Rules", keyword := kw, text := (house.getD []).take 150 }]
    else [])

/-- Fixed fallback suggestion when no related rules were found. -/
def fallbackSuggestion : LC :=
  strL "No related rules found. Suggest using standard 5e mechanics or making a balanced ruling that favors narrative over mechanics."

/-- The fixed closing sentence of a composed suggestion. -/
def closingSuggestion : LC :=
  strL "\nSuggested ruling: Apply the principles above to this situation. Favor rulings that keep the game moving and are fair to all players."

/-- Rendering of the first two related rules inside a composed suggestion
(`f"- {rule['source']}: {rule['text']}...\n"` per entry). -/
def renderRelated (rs : List RelatedRule) : LC :=
  rs.foldl (fun acc r => acc ++ strL "- " ++ r.source ++ strL ": " ++ r.text ++ strL "...\n") []

/-- Embedding of `RulesArbiter._generate_ruling_suggestion` (rules_arbiter
lines 237-248). -/
def genRulingSuggestion (situation : LC) (related : List RelatedRule) : LC :=
  if related.isEmpty then fallbackSuggestion
  else strL "Based on related rules:\n" ++ renderRelated (related.take 2) ++ closingSuggestion

/-- The fixed `note` field of every `resolve_edge_case` result. -/
def disclaimerNote : LC :=
  strL "This is a suggested ruling. DM has final authority."

/-- Embedding of `RulesArbiter.resolve_edge_case` (rules_arbiter.py lines
121-141). -/
def resolveEdgeCase (a : Arbiter) (situation : LC) : EdgeResult :=
  let related := (extractKeywords situation).flatMap (relatedForKeyword a)
  { situation := situation
    relatedRules := related
    suggestion := genRulingSuggestion situation related
    note := disclaimerNote }

/-- The loader's configuration (config.json): the campaign table and the
persisted active-campaign selection. -/
structure LoaderConfig where
  campaigns : List (LC × CampaignData)
  activeCampaign : LC
deriving DecidableEq

/-- The `CampaignLoader` state: its in-memory config and the active
campaign name. -/
structure LoaderState where
  config : LoaderConfig
  activeCampaignName : LC
deriving DecidableEq

/-- Embedding of `CampaignLoader.switch_campaign` (campaign_loader.py lines
50-64).  The third component models the config written to disk by
`json.dump` (`none` when nothing is written). -/
def switchCampaign (st : LoaderState) (name : LC) :
    Bool × LoaderState × Option LoaderConfig :=
  match alookup name st.config.campaigns with
  | none => (false, st, none)
  | some _ =>
    let cfg : LoaderConfig :=
      { campaigns := st.config.campaigns, activeCampaign := name }
    (true, { config := cfg, activeCampaignName := name }, some cfg)

/-- Embedding of `CampaignLoader.load_campaign` with no argument: look up
the active campaign; `none` models the raised `ValueError("Campaign not
found")`.  The on-disk aggregation is modelled as the already-aggregated
`CampaignData` stored in the campaign table (the spec's section 4.1
document-store contract). -/
def loadCampaign (st : LoaderState) : Option CampaignData :=
  alookup st.activeCampaignName st.config.campaigns

/-- The MCP server's global state relevant to campaign switching:
`campaign_loader`, `core_rules` and `rules_arbiter`. -/
structure ServerState where
  loader : LoaderState
  coreRules : List (LC × LC)
  arbiter : Arbiter
deriving DecidableEq

/-- Embedding of the `switch_campaign` branch of `call_tool`
(dnd_campaign_mcp.py lines 210-227): on success the campaign is reloaded
and the arbiter rebuilt; on failure the reply reports "Campaign not found"
and nothing is rebuilt.  The second component is the reply text. -/
def serverSwitchCampaign (s : ServerState) (name : LC) : ServerState × LC :=
  let r := switchCampaign s.loader name
  if r.1 then
    match loadCampaign r.2.1 with
    | some data =>
      ({ loader := r.2.1, coreRules := s.coreRules, arbiter := mkArbiter data s.coreRules },
        strL "✓ Switched to campaign: " ++ data.name)
    | none =>
      ({ s with loader := r.2.1 }, strL "Error: Campaign not found: " ++ name)
  else
    ({ s with loader := r.2.1 }, strL "✗ Campaign not found: " ++ name)

/-! Concrete fixtures used for witnesses and counterexamples.  The 99-char
corpora are long enough that the end trim's unguarded `rfind` comparison
(`-1 > len - 100`) is false, so the excerpt survives. -/

/-- Fixture: a core-rules text matched by the term "xkey". -/
def wCoreDoc : LC := strL "xkey" ++ List.replicate 95 'a'

/-- Fixture: a house-rules text matched by the term "xkey". -/
def wHouseDoc : LC := strL "xkey" ++ List.replicate 95 'b'

/-- Fixture: an arbiter whose both corpora match "xkey". -/
def wArbBoth : Arbiter :=
  { campaignName := strL "Camp", houseRules := wHouseDoc,
    coreRules := [(strL "house-rules", wCoreDoc)] }

/-- Fixture: an arbiter with core rules only. -/
def wArbCoreOnly : Arbiter :=
  { campaignName := strL "Camp", houseRules := [],
    coreRules := [(strL "house-rules", wCoreDoc)] }

/-- Fixture: an arbiter whose core search for "b" yields a present-but-empty
excerpt (text "ab") while the house search yields a non-empty one. -/
def cArbCompare : Arbiter :=
  { campaignName := strL "Camp", houseRules := 'b' :: List.replicate 98 'c',
    coreRules := [(strL "house-rules", strL "ab")] }

/-- Fixture: an arbiter whose house corpus matches the keyword "combat". -/
def wArbEdge : Arbiter :=
  { campaignName := strL "Camp", houseRules := strL "combat" ++ List.replicate 93 'x',
    coreRules := [] }

/-- Fixture: an arbiter with empty corpora. -/
def emptyArb : Arbiter :=
  { campaignName := strL "Camp", houseRules := [], coreRules := [] }

/-- Fixture: a document with headings at depths [1, 2, 1]. -/
def demoDoc : LC := strL "# A\nalpha\n## B\nbeta\n# C\ngamma"

/-- Fixture: a document where text shaped like a heading follows the matched
heading name immediately, mid-line. -/
def cexDoc : LC := strL "# A# B\nx\n# C\ny"

/-- Fixture: a server state with a single configured campaign "alpha". -/
def wServer : ServerState :=
  { loader :=
      { config :=
          { campaigns :=
              [(strL "alpha",
                { name := strL "Alpha", files := [(strL "rules", strL "r-content")] })]
            activeCampaign := strL "alpha" }
        activeCampaignName := strL "alpha" }
    coreRules := []
    arbiter :=
      { campaignName := strL "Alpha", houseRules := strL "r-content", coreRules := [] } }

/-! Helper lemmas. -/

theorem leadsL_nil_of_ne (n : LC) (h : n ≠ []) : leadsL n [] = false := by
  cases n with
  | nil => exact absurd rfl h
  | cons c t => rfl

theorem pyFindNat_isSome_iff (n h : LC) :
    (pyFindNat n h).isSome = true ↔ ∃ i, leadsL n (h.drop i) = true := by
  induction h with
  | nil =>
    rw [pyFindNat]
    by_cases hl : leadsL n [] = true
    · rw [if_pos hl]
      simp only [Option.isSome_some, true_iff]
      exact ⟨0, hl⟩
    · rw [if_neg hl]
      constructor
      · intro habs
        exact absurd habs (by simp)
      · rintro ⟨i, hi⟩
        rw [List.drop_nil] at hi
        exact absurd hi hl
  | cons c t ih =>
    rw [pyFindNat]
    by_cases hl : leadsL n (c :: t) = true
    · rw [if_pos hl]
      simp only [Option.isSome_some, true_iff]
      exact ⟨0, hl⟩
    · rw [if_neg hl]
      show ((pyFindNat n t).map (· + 1)).isSome = true ↔ _
      rw [Option.isSome_map']
      rw [ih]
      constructor
      · rintro ⟨i, hi⟩
        exact ⟨i + 1, hi⟩
      · rintro ⟨i, hi⟩
        cases i with
        | zero => exact absurd hi hl
        | succ j => exact ⟨j, hi⟩

theorem lowerL_ne_nil (l : LC) (h : l ≠ []) : lowerL l ≠ [] := by
  cases l with
  | nil => exact absurd rfl h
  | cons c t => simp [lowerL]

/-! Claim C1.  The claim: for every non-empty term and every text containing
it case-insensitively, `_search_in_text` returns a present excerpt that
contains a case-insensitive occurrence of the term, and the excerpt is
empty only when there is no match. -/

set_option maxRecDepth 10000 in
/-- C1 counterexample.  For term "b" and text "ab. " followed by 99 'c'
characters (a text that contains "b" at index 1), the sentence-boundary
trim drops everything up to the first ". " — including the match — so the
returned excerpt is the 99 'c's, which contain no case-insensitive
occurrence of "b".  This falsifies the claim as stated. -/
theorem C1_counterexample :
    ciFindNat (strL "b") (strL "ab. " ++ List.replicate 99 'c') = some 1
    ∧ searchInText (strL "b") (strL "ab. " ++ List.replicate 99 'c')
        = some (List.replicate 99 'c')
    ∧ ciFindNat (strL "b") (List.replicate 99 'c') = none := by
  decide

/-- C1 amended: for every non-empty term, `_search_in_text` returns a
present (non-None) result exactly when the text contains a case-insensitive
occurrence of the term; the returned excerpt, however, may be empty or may
fail to contain the term, because the sentence-boundary trims can remove
the matched region. -/
theorem searchInText_isSome_eq (term text : LC) (h1 : text ≠ []) (h2 : term ≠ []) :
    (searchInText term text).isSome = (ciFindNat term text).isSome := by
  have hc : (text.isEmpty || term.isEmpty) = false := by
    rw [List.isEmpty_eq_false.mpr h1, List.isEmpty_eq_false.mpr h2]
    rfl
  rw [searchInText, if_neg (by simp [hc])]
  cases hf : ciFindNat term text with
  | none => simp
  | some m => simp

theorem C1_present (term text : LC) (hterm : term ≠ []) :
    (searchInText term text).isSome = true ↔ ciOccurs term text := by
  cases text with
  | nil =>
    constructor
    · intro habs
      rw [show searchInText term [] = none from rfl] at habs
      exact absurd habs (by simp)
    · rintro ⟨i, hi⟩
      rw [show lowerL ([] : LC) = [] from rfl, List.drop_nil] at hi
      rw [leadsL_nil_of_ne _ (lowerL_ne_nil term hterm)] at hi
      cases hi
  | cons c t =>
    rw [searchInText_isSome_eq term (c :: t) (by simp) hterm]
    exact pyFindNat_isSome_iff (lowerL term) (lowerL (c :: t))

set_option maxRecDepth 10000 in
/-- C1 witness: at a concrete term and matching text, the amended theorem
yields a present result. -/
theorem C1_present_witness :
    (searchInText (strL "xkey") (strL "xkey" ++ List.replicate 95 'a')).isSome = true :=
  (C1_present (strL "xkey") (strL "xkey" ++ List.replicate 95 'a') (by decide)).mpr
    ⟨0, by decide⟩

/-! Claim C2: `query_rule` recommends the house-rule excerpt whenever the
house-rule field is populated, and recommends the core excerpt only when no
house excerpt was found. -/

/-- C2: whenever the houseRule field of a `query_rule` result is populated —
in particular when both fields are — the recommendation is built from the
house excerpt (a string the core-rule recommendation shape never equals);
the core-excerpt recommendation occurs only when the houseRule field is
absent. -/
theorem C2_house_precedence (a : Arbiter) (rn ctx h c : LC) :
    ((queryRule a rn ctx).houseRule = some h →
      (queryRule a rn ctx).recommendation
        = strL "Use campaign-specific rule: " ++ h.take 200 ++ strL "...")
    ∧ ((queryRule a rn ctx).houseRule = none → (queryRule a rn ctx).coreRule = some c →
      (queryRule a rn ctx).recommendation
        = strL "Use core rule: " ++ c.take 200 ++ strL "...")
    ∧ ((queryRule a rn ctx).houseRule = some h →
      (queryRule a rn ctx).recommendation
        ≠ strL "Use core rule: " ++ c.take 200 ++ strL "...") := by
  have hA : (queryRule a rn ctx).houseRule = some h →
      (queryRule a rn ctx).recommendation
        = strL "Use campaign-specific rule: " ++ h.take 200 ++ strL "..." := by
    intro hh
    by_cases ht : truthy (searchInText rn a.houseRules) = true
    · have hh2 : searchInText rn a.houseRules = some h := by
        have : (if truthy (searchInText rn a.houseRules) then searchInText rn a.houseRules
            else none) = some h := hh
        rwa [if_pos ht] at this
      show (match (if truthy (searchInText rn a.houseRules) then searchInText rn a.houseRules
          else none) with
        | some h => strL "Use campaign-specific rule: " ++ h.take 200 ++ strL "..."
        | none =>
          match (if truthy (searchInText rn (coreText a)) then searchInText rn (coreText a)
              else none) with
          | some c => strL "Use core rule: " ++ c.take 200 ++ strL "..."
          | none =>
            strL "No specific rule found for '" ++ rn
              ++ strL "'. Use standard 5e rules or make a ruling.") = _
      rw [if_pos ht, hh2]
    · have hh2 : (if truthy (searchInText rn a.houseRules) then searchInText rn a.houseRules
          else none) = some h := hh
      rw [if_neg ht] at hh2
      cases hh2
  refine ⟨hA, ?_, ?_⟩
  · intro hh hc
    have hh2 : (if truthy (searchInText rn a.houseRules) then searchInText rn a.houseRules
        else none) = none := hh
    have hc2 : (if truthy (searchInText rn (coreText a)) then searchInText rn (coreText a)
        else none) = some c := hc
    show (match (if truthy (searchInText rn a.houseRules) then searchInText rn a.houseRules
        else none) with
      | some h => strL "Use campaign-specific rule: " ++ h.take 200 ++ strL "..."
      | none =>
        match (if truthy (searchInText rn (coreText a)) then searchInText rn (coreText a)
            else none) with
        | some c => strL "Use core rule: " ++ c.take 200 ++ strL "..."
        | none =>
          strL "No specific rule found for '" ++ rn
            ++ strL "'. Use standard 5e rules or make a ruling.") = _
    rw [hh2, hc2]
  · intro hh heq
    rw [hA hh] at heq
    have e1 : (strL "Use campaign-specific rule: " ++ (h.take 200 ++ strL "..."))[5]?
        = some 'a' := rfl
    have e2 : (strL "Use core rule: " ++ (c.take 200 ++ strL "..."))[5]? = some 'o' := rfl
    have h5 := congrArg (fun l => l[5]?) heq
    simp only [List.append_assoc] at h5
    rw [e1, e2] at h5
    cases Option.some.inj h5

set_option maxRecDepth 10000 in
/-- C2 witness: with both corpora matching "xkey", the recommendation quotes
the house excerpt; with only the core corpus matching, it quotes the core
excerpt. -/
theorem C2_house_precedence_witness :
    (queryRule wArbBoth (strL "xkey") []).recommendation
      = strL "Use campaign-specific rule: " ++ wHouseDoc.take 200 ++ strL "..."
    ∧ (queryRule wArbCoreOnly (strL "xkey") []).recommendation
      = strL "Use core rule: " ++ wCoreDoc.take 200 ++ strL "..." :=
  ⟨(C2_house_precedence wArbBoth (strL "xkey") [] wHouseDoc wCoreDoc).1 (by decide),
   (C2_house_precedence wArbCoreOnly (strL "xkey") [] wHouseDoc wCoreDoc).2.1
    (by decide) (by decide)⟩

/-! Claim C4: `compare_rules` differences list. -/

set_option maxRecDepth 10000 in
/-- C4 counterexample.  For rule "b", the core search returns the present
excerpt `some ""` (the unguarded end trim empties the short window) and the
house search returns a present non-empty excerpt; the two excerpts are not
textually identical, yet the differences list is empty, because the source
tests Python truthiness (`core_search and house_search ...`) rather than
presence.  This falsifies the claim as stated. -/
theorem C4_counterexample :
    searchInText (strL "b") (coreText cArbCompare) = some []
    ∧ searchInText (strL "b") cArbCompare.houseRules = some ('b' :: List.replicate 98 'c')
    ∧ ([] : LC) ≠ 'b' :: List.replicate 98 'c'
    ∧ (compareRules cArbCompare (strL "b")).differences = [] := by
  decide

/-- C4 amended: the differences list has length 0 or 1, and has length 1
exactly when both searches return a present AND NON-EMPTY excerpt and the
two excerpts differ textually (a present-but-empty excerpt counts as a
miss). -/
theorem C4_differences (a : Arbiter) (rn : LC) :
    (compareRules a rn).differences.length ≤ 1
    ∧ ((compareRules a rn).differences.length = 1 ↔
        ∃ c h, searchInText rn (coreText a) = some c ∧ c ≠ []
          ∧ searchInText rn a.houseRules = some h ∧ h ≠ [] ∧ c ≠ h) := by
  simp only [compareRules]
  cases hc : searchInText rn (coreText a) with
  | none => simp
  | some c =>
    cases hh : searchInText rn a.houseRules with
    | none => simp
    | some h =>
      by_cases hcond : c.isEmpty = false ∧ h.isEmpty = false ∧ c ≠ h
      · obtain ⟨h1, h2, h3⟩ := hcond
        rw [List.isEmpty_eq_false] at h1 h2
        simp [h1, h2, h3]
      · simp only [if_neg hcond, List.length_nil, Nat.zero_le, true_and]
        constructor
        · intro habs
          cases habs
        · rintro ⟨c', h', hceq, hne1, hheq, hne2, hne3⟩
          cases hceq
          cases hheq
          exact absurd ⟨List.isEmpty_eq_false.mpr hne1, List.isEmpty_eq_false.mpr hne2, hne3⟩ hcond

/-! Claim C5: keyword caps. -/

/-- C5: `_extract_keywords` returns at most 5 entries, and the entries
contributed by the quoted-phrase step (those after the vocabulary hits) are
at most 3. -/
theorem C5_keyword_caps (text : LC) :
    (extractKeywords text).length ≤ 5
    ∧ ((extractKeywords text).drop (vocabHits text).length).length ≤ 3 := by
  constructor
  · simp only [extractKeywords, List.length_take]
    omega
  · simp only [extractKeywords, List.length_drop, List.length_take, List.length_append]
    omega

/-! Claim C6: the closing disclaimer of `resolve_edge_case`. -/

set_option maxRecDepth 10000 in
/-- C6 counterexample.  The suggestion field does NOT end with (or even
contain) the DM-final-authority disclaimer: for a situation with no
keywords the suggestion is the generic fallback, and the disclaimer lives
in the separate note field.  This falsifies the claim as stated. -/
theorem C6_counterexample :
    (resolveEdgeCase emptyArb (strL "zzz")).suggestion = fallbackSuggestion
    ∧ isSubstrL (strL "final authority") (resolveEdgeCase emptyArb (strL "zzz")).suggestion
      = false
    ∧ isSubstrL (strL "final authority") (resolveEdgeCase emptyArb (strL "zzz")).note
      = true := by
  decide

/-- C6 amended: the DM-final-authority disclaimer is the fixed note field of
every `resolve_edge_case` result (not a suffix of the suggestion field); and
when related rules exist, the suggestion lists the first 2 related-rule
entries in discovery order followed by the fixed closing sentence. -/
theorem C6_note_and_suggestion (a : Arbiter) (sit : LC) :
    (resolveEdgeCase a sit).note = disclaimerNote
    ∧ ((resolveEdgeCase a sit).relatedRules ≠ [] →
        (resolveEdgeCase a sit).suggestion
          = strL "Based on related rules:\n"
            ++ renderRelated ((resolveEdgeCase a sit).relatedRules.take 2)
            ++ closingSuggestion) := by
  constructor
  · rfl
  · intro hne
    have hBool : ((extractKeywords sit).flatMap (relatedForKeyword a)).isEmpty = false :=
      List.isEmpty_eq_false.mpr hne
    show genRulingSuggestion sit ((extractKeywords sit).flatMap (relatedForKeyword a)) = _
    rw [genRulingSuggestion, if_neg (by simp [hBool])]
    rfl

set_option maxRecDepth 10000 in
/-- C6 witness: with one related rule found, the note is the disclaimer and
the suggestion is composed from the related entries and the closing
sentence. -/
theorem C6_note_and_suggestion_witness :
    (resolveEdgeCase wArbEdge (strL "combat")).note = disclaimerNote
    ∧ (resolveEdgeCase wArbEdge (strL "combat")).suggestion
        = strL "Based on related rules:\n"
          ++ renderRelated ((resolveEdgeCase wArbEdge (strL "combat")).relatedRules.take 2)
          ++ closingSuggestion :=
  ⟨(C6_note_and_suggestion wArbEdge (strL "combat")).1,
   (C6_note_and_suggestion wArbEdge (strL "combat")).2 (by decide)⟩

/-! Claim C3: section extraction bounds.  Helper lemmas about the heading
scans first. -/

theorem hashRun_drop_lt (s : LC) (j : Nat) (hj : j < hashRun s) :
    ∃ t, s.drop j = '#' :: t := by
  induction s generalizing j with
  | nil => simp [hashRun] at hj
  | cons c t ih =>
    simp only [hashRun] at hj
    by_cases hc : c = '#'
    · rw [if_pos hc] at hj
      cases j with
      | zero => exact ⟨t, by rw [List.drop_zero, hc]⟩
      | succ j2 =>
        obtain ⟨t2, ht2⟩ := ih j2 (by omega)
        exact ⟨t2, by rwa [List.drop_succ_cons]⟩
    · rw [if_neg hc] at hj
      omega

theorem nhTryK_iff (s : LC) (k : Nat) :
    nhTryK s k = true ↔ ∃ j, 1 ≤ j ∧ j ≤ k ∧ wsAt (s.drop j) = true := by
  induction k with
  | zero =>
    constructor
    · intro habs
      cases habs
    · rintro ⟨j, h1, h2, -⟩
      omega
  | succ k ih =>
    rw [nhTryK, Bool.or_eq_true, ih]
    constructor
    · rintro (hw | ⟨j, h1, h2, hj⟩)
      · exact ⟨k + 1, by omega, Nat.le_refl _, hw⟩
      · exact ⟨j, h1, by omega, hj⟩
    · rintro ⟨j, h1, h2, hj⟩
      by_cases hjk : j = k + 1
      · left
        rwa [hjk] at hj
      · right
        exact ⟨j, h1, by omega, hj⟩

theorem nhMatches_eq_spec (d : Nat) (s : LC) : nhMatches d s = specHeadingLE d s := by
  rw [Bool.eq_iff_iff]
  rw [show nhMatches d s = nhTryK s (min d (hashRun s)) from rfl]
  rw [nhTryK_iff]
  rw [show specHeadingLE d s
      = (decide (1 ≤ hashRun s) && decide (hashRun s ≤ d) && wsAt (s.drop (hashRun s)))
      from rfl]
  simp only [Bool.and_eq_true, decide_eq_true_eq]
  constructor
  · rintro ⟨j, h1, h2, hj⟩
    have hjr : j ≤ hashRun s := le_trans h2 (Nat.min_le_right _ _)
    have hjd : j ≤ d := le_trans h2 (Nat.min_le_left _ _)
    rcases Nat.lt_or_ge j (hashRun s) with hlt | hge
    · obtain ⟨t2, ht2⟩ := hashRun_drop_lt s j hlt
      rw [ht2] at hj
      have hns : wsAt ('#' :: t2) = false := rfl
      rw [hns] at hj
      cases hj
    · have hjeq : j = hashRun s := Nat.le_antisymm hjr hge
      exact ⟨⟨hjeq ▸ h1, hjeq ▸ hjd⟩, hjeq ▸ hj⟩
  · rintro ⟨⟨h1, h2⟩, hw⟩
    exact ⟨hashRun s, h1, Nat.le_min.mpr ⟨h2, Nat.le_refl _⟩, hw⟩

theorem nextHeadingAux_eq_spec (d : Nat) (s : LC) :
    ∀ idx ls, nextHeadingAux d s idx ls = specNextHeadingAux d s idx ls := by
  induction s with
  | nil => intro idx ls; rfl
  | cons c t ih =>
    intro idx ls
    rw [nextHeadingAux, specNextHeadingAux, nhMatches_eq_spec]
    by_cases hcond : (ls && specHeadingLE d (c :: t)) = true
    · rw [if_pos hcond, if_pos hcond]
    · rw [if_neg hcond, if_neg hcond, ih]

theorem nextHeadingIdx_eq_spec (d : Nat) (rest : LC) :
    nextHeadingIdx d rest = specNextHeadingIdx d rest :=
  nextHeadingAux_eq_spec d rest 0 true

/-- C3 counterexample.  In `cexDoc = "# A# B\nx\n# C\ny"` the next heading
LINE of depth ≤ 1 after the matched heading "# A" is "# C" at document
index 9, so the claim mandates the section `strip(text[0:9]) = "# A# B\nx"`.
The code instead stops at index 3 — the `^` of the MULTILINE terminator
regex matches at the very start of the remainder string, mid-line — and
returns "# A".  This falsifies the claim as stated. -/
theorem C3_counterexample :
    extractSection cexDoc (strL "A") = some (strL "# A")
    ∧ pyStrip (cexDoc.take 9) = strL "# A# B\nx"
    ∧ extractSection cexDoc (strL "A") ≠ some (strL "# A# B\nx") := by
  decide

/-- C3 amended: the terminator scan of `_extract_section` finds exactly the
next heading line of depth between 1 and the matched depth d (deeper
headings do not terminate the section), where "line start" also includes
the very start of the scanned remainder, even mid-line; given the heading
match, the returned section is the whitespace-stripped slice from the
heading start to that terminator (end of text when none).  On the depths
[1,2,1] document the first depth-1 section runs to the second depth-1
heading and keeps the depth-2 sub-section. -/
theorem C3_section_bounds :
    (∀ d rest, nextHeadingIdx d rest = specNextHeadingIdx d rest)
    ∧ (∀ text name p e, matchHeading name text = some (p, e) →
        extractSection text name
          = some (pyStrip ((text.drop p).take
              ((match specNextHeadingIdx (hashRun (text.drop p)) (text.drop e) with
                | some q => e + q
                | none => text.length) - p))))
    ∧ extractSection demoDoc (strL "A") = some (strL "# A\nalpha\n## B\nbeta") := by
  refine ⟨nextHeadingIdx_eq_spec, ?_, by decide⟩
  intro text name p e hmatch
  simp only [extractSection, hmatch]
  rw [nextHeadingIdx_eq_spec]

/-- C3 witness: the bounds description instantiated on the concrete
[1,2,1]-depth document, with the heading match discharged by computation. -/
theorem C3_section_bounds_witness :
    extractSection demoDoc (strL "A")
      = some (pyStrip ((demoDoc.drop 0).take
          ((match specNextHeadingIdx (hashRun (demoDoc.drop 0)) (demoDoc.drop 3) with
            | some q => 3 + q
            | none => demoDoc.length) - 0))) :=
  C3_section_bounds.2.1 demoDoc (strL "A") 0 3 (by decide)

/-! Claim C7: sentence-boundary trims. -/

set_option maxRecDepth 10000 in
/-- C7 bug evaluation.  For term "b" in text "ab" the raw window is "ab",
which contains no ". " terminator at all (`find` returns -1), yet the code
truncates the entire window: `rfind` returns -1 and the unguarded test
`-1 > len(context) - 100` holds for every window shorter than 99
characters, so `context[:last_period + 1] = context[:0] = ""`.  The claim
(and spec section 4.2) say the end trim applies only when a terminator
exists. -/
theorem C7_trim_without_terminator :
    pyFind (strL ". ") (strL "ab") = -1
    ∧ searchInText (strL "b") (strL "ab") = some [] := by
  decide

/-! Claim C8: switching to an unknown campaign. -/

/-- C8: when the campaign identifier is not configured, `switch_campaign`
returns False without touching state and without writing the config file,
the server tool replies "Campaign not found" leaving the whole server state
(including the rules arbiter) unchanged, and any subsequent `query_rule`
behaves exactly as before the attempted switch. -/
theorem C8_switch_unknown (ss : ServerState) (name : LC)
    (h : alookup name ss.loader.config.campaigns = none) :
    switchCampaign ss.loader name = (false, ss.loader, none)
    ∧ serverSwitchCampaign ss name = (ss, strL "✗ Campaign not found: " ++ name)
    ∧ ∀ rn ctx, queryRule (serverSwitchCampaign ss name).1.arbiter rn ctx
        = queryRule ss.arbiter rn ctx := by
  have hsw : switchCampaign ss.loader name = (false, ss.loader, none) := by
    rw [switchCampaign, h]
  have hserver : serverSwitchCampaign ss name = (ss, strL "✗ Campaign not found: " ++ name) := by
    rw [serverSwitchCampaign, hsw]
    rfl
  exact ⟨hsw, hserver, fun rn ctx => by rw [hserver]⟩

/-- C8 witness: on a server with the single campaign "alpha", switching to
"beta" fails cleanly and a subsequent query is unchanged. -/
theorem C8_switch_unknown_witness :
    switchCampaign wServer.loader (strL "beta") = (false, wServer.loader, none)
    ∧ serverSwitchCampaign wServer (strL "beta")
        = (wServer, strL "✗ Campaign not found: " ++ strL "beta")
    ∧ queryRule (serverSwitchCampaign wServer (strL "beta")).1.arbiter (strL "q") []
        = queryRule wServer.arbiter (strL "q") [] := by
  obtain ⟨h1, h2, h3⟩ := C8_switch_unknown wServer (strL "beta") (by decide)
  exact ⟨h1, h2, h3 (strL "q") []⟩

/-! Claim C9: the four resolver operations are total over the embedded
string-valued document store.  Totality itself is witnessed by the
embeddings being ordinary (terminating, exception-free) Lean functions;
the theorem additionally pins down the "not found" representations: absent
fields and fixed not-found messages, never a failure value. -/

/-- C9: for every arbiter (any string-valued document store) and all string
inputs, the four operations produce well-formed records in which unmatched
queries appear as `none` fields or fixed not-found recommendations. -/
theorem C9_total_resolvers (a : Arbiter) (rn ctx sit : LC) (cat : Option LC) :
    (queryRule a rn ctx).ruleName = rn
    ∧ (searchInText rn (coreText a) = none → (queryRule a rn ctx).coreRule = none)
    ∧ (searchInText rn a.houseRules = none → (queryRule a rn ctx).houseRule = none)
    ∧ ((queryRule a rn ctx).houseRule = none → (queryRule a rn ctx).coreRule = none →
        (queryRule a rn ctx).recommendation
          = strL "No specific rule found for '" ++ rn
            ++ strL "'. Use standard 5e rules or make a ruling.")
    ∧ (checkHouseRules a cat).campaign = a.campaignName
    ∧ (searchInText rn (coreText a) = none →
        (compareRules a rn).coreDefined = false ∧ (compareRules a rn).differences = [])
    ∧ (resolveEdgeCase a sit).situation = sit := by
  refine ⟨rfl, ?_, ?_, ?_, ?_, ?_, rfl⟩
  · intro h
    show (if truthy (searchInText rn (coreText a)) then searchInText rn (coreText a)
        else none) = none
    rw [h]
    rfl
  · intro h
    show (if truthy (searchInText rn a.houseRules) then searchInText rn a.houseRules
        else none) = none
    rw [h]
    rfl
  · intro hh hc
    have hh2 : (if truthy (searchInText rn a.houseRules) then searchInText rn a.houseRules
        else none) = none := hh
    have hc2 : (if truthy (searchInText rn (coreText a)) then searchInText rn (coreText a)
        else none) = none := hc
    show (match (if truthy (searchInText rn a.houseRules) then searchInText rn a.houseRules
        else none) with
      | some h => strL "Use campaign-specific rule: " ++ h.take 200 ++ strL "..."
      | none =>
        match (if truthy (searchInText rn (coreText a)) then searchInText rn (coreText a)
            else none) with
        | some c => strL "Use core rule: " ++ c.take 200 ++ strL "..."
        | none =>
          strL "No specific rule found for '" ++ rn
            ++ strL "'. Use standard 5e rules or make a ruling.") = _
    rw [hh2, hc2]
  · by_cases he : a.houseRules.isEmpty = true
    · simp [checkHouseRules, he]
    · cases cat with
      | none => simp [checkHouseRules, he, checkAllBranch]
      | some c =>
        by_cases hce : c.isEmpty = true
        · simp [checkHouseRules, he, hce, checkAllBranch]
        · simp [checkHouseRules, he, hce]
  · intro h
    constructor
    · show truthy (searchInText rn (coreText a)) = false
      rw [h]
      rfl
    · show (match searchInText rn (coreText a), searchInText rn a.houseRules with
        | some c, some h2 =>
          if c.isEmpty = false ∧ h2.isEmpty = false ∧ c ≠ h2 then
            [{ aspect := rn, coreRule := c, campaignRule := h2, useCampaignRule := true }]
          else []
        | _, _ => []) = ([] : List DiffEntry)
      rw [h]

/-- C9 witness: the representations at a concrete empty store and concrete
inputs, with every hypothesis discharged by computation. -/
theorem C9_total_resolvers_witness :
    (queryRule emptyArb (strL "q") []).coreRule = none
    ∧ (queryRule emptyArb (strL "q") []).houseRule = none
    ∧ (queryRule emptyArb (strL "q") []).recommendation
        = strL "No specific rule found for '" ++ strL "q"
          ++ strL "'. Use standard 5e rules or make a ruling."
    ∧ (checkHouseRules emptyArb none).campaign = emptyArb.campaignName
    ∧ (compareRules emptyArb (strL "q")).coreDefined = false
    ∧ (compareRules emptyArb (strL "q")).differences = []
    ∧ (resolveEdgeCase emptyArb (strL "zzz")).situation = strL "zzz" := by
  obtain ⟨-, h2, h3, h4, h5, h6, h7⟩ :=
    C9_total_resolvers emptyArb (strL "q") [] (strL "zzz") none
  exact ⟨h2 (by decide), h3 (by decide), h4 (h3 (by decide)) (h2 (by decide)), h5,
    (h6 (by decide)).1, (h6 (by decide)).2, h7⟩

/-! Claim C10: the legacy "rules" location. -/

/-- C10: when the campaign's files mapping has no "houseRules" key, the
content under the "rules" key (when present) becomes the arbiter's
house-rules text — the single text consulted by every subsequent house-rule
search — and when neither key is present the house-rules text is empty. -/
theorem C10_house_rules_fallback (nm r : LC) (files core : List (LC × LC)) :
    (alookup (strL "houseRules") files = none → alookup (strL "rules") files = some r →
      (mkArbiter { name := nm, files := files } core).houseRules = r)
    ∧ (alookup (strL "houseRules") files = none → alookup (strL "rules") files = none →
      (mkArbiter { name := nm, files := files } core).houseRules = []) := by
  constructor
  · intro h1 h2
    show extractHouseRules files = r
    rw [extractHouseRules, h1, h2]
  · intro h1 h2
    show extractHouseRules files = []
    rw [extractHouseRules, h1, h2]

/-- C10 witness: a store with only a "rules" entry yields that entry's
content; a store with neither key yields the empty text. -/
theorem C10_house_rules_fallback_witness :
    (mkArbiter { name := strL "N", files := [(strL "rules", strL "rc")] } []).houseRules
      = strL "rc"
    ∧ (mkArbiter { name := strL "N", files := [] } []).houseRules = [] :=
  ⟨(C10_house_rules_fallback (strL "N") (strL "rc") [(strL "rules", strL "rc")] []).1
      (by decide) (by decide),
   (C10_house_rules_fallback (strL "N") (strL "rc") [] []).2 (by decide) (by decide)⟩

end DndMcp
